import Mathlib

/-!
Verification of the event subsystem of the `@lumjs/dom` library
(`src/lib/events/index.js`, with the listener capability test from
`src/lib/index.js`).

The JavaScript code is shallowly embedded: nodes are natural-number
identities, per-node registration tables are functions from identity key to
an optional registration, the mutable caller-supplied options object lives
in an explicit heap indexed by references, and fallible operations return
`Except`/error components.  Machine details that the code delegates to the
host (native listener bookkeeping, selector matching) are modelled as data
the embedded operations manipulate explicitly.
-/

set_option autoImplicit false

namespace LumDomEvents

/-! ## JavaScript string primitives

`eventSuffix` uses `String.prototype.replaceAll(/\s/g, '')`, and
`$eventDef` uses `types.trim().split(/\s+/)`.  We embed the JS whitespace
class and those three string operations. -/

/-- The JavaScript `\s` character class (ECMA-262 WhiteSpace and
LineTerminator code points). -/
def jsWsChar (c : Char) : Bool :=
  c = ' ' || c = '\t' || c = '\n' || c = '\x0b' || c = '\x0c' || c = '\r' ||
  c = Char.ofNat 0xa0 || c = Char.ofNat 0x1680 ||
  (0x2000 ≤ c.toNat && c.toNat ≤ 0x200a) ||
  c = Char.ofNat 0x2028 || c = Char.ofNat 0x2029 || c = Char.ofNat 0x202f ||
  c = Char.ofNat 0x205f || c = Char.ofNat 0x3000 || c = Char.ofNat 0xfeff

/-- JavaScript `String.prototype.trim()`: remove leading and trailing
whitespace. -/
def jsTrimChars (s : List Char) : List Char :=
  ((s.dropWhile jsWsChar).reverse.dropWhile jsWsChar).reverse

/-- JavaScript `String.prototype.split(/\s+/)`, processed one character at a
time.  A maximal whitespace run is a separator; the boolean records whether
we are currently inside a separator run (in which case further whitespace
is consumed without emitting another empty field).  An empty input yields
`[""]`, a leading run yields a leading empty field, and a trailing run
yields a trailing empty field, exactly as in ECMA-262. -/
def splitWsGo : List Char → List Char → Bool → List String
  | [], acc, _ => [String.mk acc.reverse]
  | c :: cs, acc, skipping =>
    if jsWsChar c then
      if skipping then splitWsGo cs acc skipping
      else String.mk acc.reverse :: splitWsGo cs [] true
    else splitWsGo cs (c :: acc) false

/-- JavaScript `s.split(/\s+/)`. -/
def jsSplitWs (s : String) : List String :=
  splitWsGo s.toList [] false

/-- The `types.trim().split(/\s+/)` normalization from `$eventDef`
(src/lib/events/index.js line 134). -/
def typesOf (s : String) : List String :=
  jsSplitWs (String.mk (jsTrimChars s.toList))

/-- JavaScript `s.replaceAll(/\s/g, '')`: drop every whitespace character. -/
def stripWs (s : String) : String :=
  String.mk (s.toList.filter (fun c => !jsWsChar c))

/-! ## Option sets and the identity key

The options object accepted by `on()`/`off()`.  `selector` is `some`
exactly when `typeof options.selector === 'string'`; `signal` is `some`
exactly when `options.signal !== undefined`; `extra` stands for any other
fields of the caller's object, which the registry never touches. -/

/-- The JavaScript value found in `options.ctrl`: absent, the literal
`true`, an object (an `AbortController` or anything with a `signal`), or
some other primitive value. -/
inductive JsCtrl where
  | undefined
  | vtrue
  | obj (id : Nat) (signal : Nat)
  | other
deriving DecidableEq, Repr

/-- An options object for `on()`/`off()` (the caller-supplied object after
shorthand normalization). -/
structure EvOptions where
  selector : Option String
  capture : Bool
  ctrl : JsCtrl
  signal : Option Nat
  extra : List (String × Nat)
deriving DecidableEq, Repr

/-- `eventSuffix(options)` from src/lib/events/index.js lines 8-20: the
selector (stripped of whitespace, in parentheses) followed by `:capture`
when the capture flag is set. -/
def eventSuffix (o : EvOptions) : String :=
  let suffix :=
    match o.selector with
    | some sel => "(" ++ stripWs sel ++ ")"
    | none => ""
  if o.capture then suffix ++ ":capture" else suffix

/-- The identity key `eid = type + suffix` used by `on()` and `off()`. -/
def eventKey (ty : String) (o : EvOptions) : String :=
  ty ++ eventSuffix o

/-! ## Argument normalization (`$eventDef`, src/lib/events/index.js 97-135)

The `options` and `handler` arguments of `on()`/`off()` may arrive in
either order.  A JavaScript argument value is embedded with just enough
structure for `isListener` and the shorthand conversions: functions carry
an identity, objects carry an identity, whether their `handleEvent`
property is a function, and their contents when read as an options set. -/

/-- A JavaScript value in the `options`/`listener` argument positions. -/
inductive JsArg where
  | undefined
  | str (s : String)
  | boolv (b : Bool)
  | fn (id : Nat)
  | obj (id : Nat) (handleEvent : Bool) (opts : EvOptions)
deriving DecidableEq, Repr

/-- `LumDOM.isListener` (src/lib/index.js line 259): a function, or an
object whose `handleEvent` property is a function. -/
def isListener : JsArg → Bool
  | .fn _ => true
  | .obj _ he _ => he
  | _ => false

/-- The normalized options produced by `$eventDef`: a bare string becomes
`{selector}`, a bare boolean becomes `{capture}`, any other non-object
becomes `{}`, and an object is kept as-is. -/
inductive NormOptions where
  | fromSelector (s : String)
  | fromCapture (b : Bool)
  | empty
  | given (id : Nat) (handleEvent : Bool) (opts : EvOptions)
deriving DecidableEq, Repr

/-- The options/listener part of `$eventDef`: swap the two arguments when
the one in the options position passes `isListener`, reject when neither
passes, then apply the shorthand conversions to the options value. -/
def eventDefOL (options0 eventListener0 : JsArg) :
    Except String (NormOptions × JsArg) := Id.run do
  let mut options := options0
  let mut eventListener := eventListener0
  if isListener options then
    let temp := eventListener
    eventListener := options
    options := temp
  else if !isListener eventListener then
    return .error "Invalid listener"
  let normed : NormOptions :=
    match options with
    | .str s => .fromSelector s
    | .boolv b => .fromCapture b
    | .obj i he o => .given i he o
    | _ => .empty
  return .ok (normed, eventListener)

/-- Written from the spec sentence for C2: pick the listener by the
capability test (options position preferred for swapping), fail with the
invalid-listener error when neither qualifies, then normalize the
remaining candidate as options. -/
def eventDefOLSpec (o l : JsArg) : Except String (NormOptions × JsArg) :=
  let chosen : Option (JsArg × JsArg) :=
    if isListener o then some (l, o)
    else if isListener l then some (o, l)
    else none
  match chosen with
  | none => .error "Invalid listener"
  | some (opts, listener) =>
    .ok (match opts with
         | .str s => .fromSelector s
         | .boolv b => .fromCapture b
         | .obj i he eo => .given i he eo
         | _ => .empty,
         listener)

/-! ## The delegation adapter (src/lib/events/index.js 164-199)

A DOM node is `nullNode` when it is `null` or not an element (the code's
`isElem` test fails), or an element carrying its identity, whether it
matches the registration's selector (selector matching is delegated to the
host's `Element.matches`), and its `parentElement`. -/

/-- A node as seen by `findDelegate`. -/
inductive DomNode where
  | nullNode
  | elem (id : Nat) (matchesSel : Bool) (parent : DomNode)
deriving DecidableEq, Repr

/-- `findDelegate(origTarget, targetElem)`: walk up the `parentElement`
chain from the event target; stop with `null` at a non-element or at the
origin node itself; return the first element matching the selector. -/
def findDelegate (origTarget : Nat) : DomNode → Option Nat
  | .nullNode => none
  | .elem id m p =>
    if id = origTarget then none
    else if m then some id
    else findDelegate origTarget p

/-- Written from the spec sentence for C4: the candidate chain walked by
the adapter — the elements from the target outward, cut off (exclusively)
at the origin node or at the first non-element. -/
def delegationChain (origTarget : Nat) : DomNode → List (Nat × Bool)
  | .nullNode => []
  | .elem id m p =>
    if id = origTarget then [] else (id, m) :: delegationChain origTarget p

/-- Written from the spec sentence for C4: the delegate is the first
element of the candidate chain that matches the selector (nearest ancestor
wins). -/
def specDelegate (origTarget : Nat) (t : DomNode) : Option Nat :=
  ((delegationChain origTarget t).find? (fun p => p.2)).map (fun p => p.1)

/-- The event object seen by the adapter.  `captureTarget` is `none` until
the adapter attaches it; the boolean is the property's enumerable flag.
`def(e, 'captureTarget', this)` comes from `@lumjs/core` (an external
dependency, not part of this repository); per its documented default it
defines the property non-enumerable, hence the `false` flag below. -/
structure DEvent where
  target : DomNode
  captureTarget : Option (Nat × Bool)
deriving DecidableEq, Repr

/-- `def(e, 'captureTarget', value)`: attach the non-enumerable property. -/
def coreDef (e : DEvent) (value : Nat) : DEvent :=
  { e with captureTarget := some (value, false) }

/-- The wrapper installed by `on()` when a delegation selector is present
(src/lib/events/index.js 186-194).  `thisNode` is the node the listener is
bound on (the receiver JavaScript passes to the bound listener).  Returns
the event object as the user listener observes it and the wrapper's return
value (`none` when the event is swallowed). -/
def delegatedListener {ρ : Type} (eventListener : Nat → DEvent → ρ)
    (thisNode : Nat) (e : DEvent) : DEvent × Option ρ :=
  match findDelegate thisNode e.target with
  | some d =>
    let e1 := coreDef e thisNode
    (e1, some (eventListener d e1))
  | none => (e, none)

/-! ## The registration state machine (`on`/`off`)

Nodes are natural-number identities.  The per-node table created by
`getNodeEvents` (a private-symbol property of the node) becomes a function
from node and identity key to an optional registration; the registry's
`this.events` audit array becomes a list; the host's native listener
bookkeeping becomes a list of currently bound entries; the caller-supplied
mutable options objects live in a heap indexed by references, with `fresh`
an allocator for new host objects (`AbortController`s).

The shipped module's plugin table `HANDLER_PLUGINS` is empty (nothing in
the repository registers a plugin), so `EventHandler.on`/`off` always take
the native `addEventListener`/`removeEventListener` path; the embedding
models that path.

The listener value stored in a registration is either the user's listener
or the delegation wrapper built around it.  Two coexisting registrations
never produce structurally equal wrappers that JavaScript would consider
distinct functions, because native matching below also compares the capture
flag and same node/type/selector/capture is excluded by the duplicate
check, so structural equality of `StoredListener` is a faithful model of
function reference identity here. -/

/-- The listener value passed to `addEventListener`: the user listener
itself, or the delegation wrapper closed over a selector. -/
inductive StoredListener where
  | direct (userListener : Nat)
  | delegated (selector : String) (userListener : Nat)
deriving DecidableEq, Repr

/-- An `EventHandler` instance (src/lib/events/index.js 387-445) as stored
in the per-node table and the audit list. -/
structure Registration where
  node : Nat
  type : String
  listener : StoredListener
  options : Nat
deriving DecidableEq, Repr

/-- One listener currently bound in the host.  `capture` is the value the
host snapshots from the options object at bind time; `options` remembers
the options reference passed to the native call. -/
structure NativeEntry where
  node : Nat
  evType : String
  listener : StoredListener
  capture : Bool
  options : Nat
deriving DecidableEq, Repr

/-- The full state the event subsystem manipulates. -/
structure EvState where
  tables : Nat → String → Option Registration
  audit : List Registration
  native : List NativeEntry
  heap : Nat → EvOptions
  fresh : Nat

/-- `removeEventListener(node, type, listener, options)`: unbind the
entries matching node, type, listener reference and capture flag (the
host's matching rule). -/
def removeNative (lst : List NativeEntry) (node : Nat) (ty : String)
    (l : StoredListener) (cap : Bool) : List NativeEntry :=
  lst.filter (fun e =>
    !(decide (e.node = node ∧ e.evType = ty ∧ e.listener = l ∧ e.capture = cap)))

/-- The `options.ctrl` handling of `on()` (src/lib/events/index.js
201-209), mutating the caller's options object in place: `ctrl === true`
is replaced with a newly constructed `AbortController` (a fresh object
whose `signal` is a fresh signal), and afterwards, when `ctrl` is an
object and `signal` is undefined, `signal` is set to `ctrl.signal`. -/
def ctrlPhase (st : EvState) (optRef : Nat) : EvState :=
  let st1 :=
    if (st.heap optRef).ctrl = JsCtrl.vtrue then
      { st with
        heap := fun r =>
          if r = optRef then
            { st.heap r with ctrl := .obj st.fresh (st.fresh + 1) }
          else st.heap r,
        fresh := st.fresh + 2 }
    else st
  match (st1.heap optRef).ctrl, (st1.heap optRef).signal with
  | .obj _ sid, none =>
    { st1 with
      heap := fun r =>
        if r = optRef then { st1.heap r with signal := some sid }
        else st1.heap r }
  | _, _ => st1

/-- One iteration of the nested `on()` loop (src/lib/events/index.js
216-227): fail when the table already holds a registration under the key,
otherwise build the `EventHandler`, bind it natively, store it in the
table, and append it to the audit list. -/
def onStep (l : StoredListener) (optRef : Nat) (suffix : String) (cap : Bool)
    (st : EvState) (node : Nat) (ty : String) : EvState × Option String :=
  let eid := ty ++ suffix
  match st.tables node eid with
  | some _ =>
    (st, some "Cannot re-assign an event without removing the old one first")
  | none =>
    let reg : Registration := ⟨node, ty, l, optRef⟩
    ({ st with
       native := st.native ++ [⟨node, ty, l, cap, optRef⟩],
       tables := fun n k =>
         if n = node then (if k = eid then some reg else st.tables n k)
         else st.tables n k,
       audit := st.audit ++ [reg] },
     none)

/-- The nested loops of `on()` over nodes and types, flattened into the
node-major pair order the source iterates in; a thrown error stops
processing, leaving the state mutated so far in place. -/
def onPairs (l : StoredListener) (optRef : Nat) (suffix : String) (cap : Bool) :
    EvState → List (Nat × String) → EvState × Option String
  | st, [] => (st, none)
  | st, p :: ps =>
    match onStep l optRef suffix cap st p.1 p.2 with
    | (st1, none) => onPairs l optRef suffix cap st1 ps
    | (st1, some e) => (st1, some e)

/-- The node-major iteration order of the nested loops. -/
def nodeTypePairs (nodes : List Nat) (types : List String) :
    List (Nat × String) :=
  nodes.flatMap (fun n => types.map (fun t => (n, t)))

/-- `on(target, types, options, listener)` after `$eventDef` normalization,
for the case where the normalized options is the caller-supplied object at
`optRef`: build the effective listener (the delegation wrapper when a
selector is present), run the abort-controller phase, compute the identity
suffix, then bind every node/type pair. -/
def onCall (st : EvState) (nodes : List Nat) (types : List String)
    (optRef : Nat) (userListener : Nat) : EvState × Option String :=
  let o := st.heap optRef
  let l : StoredListener :=
    match o.selector with
    | some sel => .delegated sel userListener
    | none => .direct userListener
  let st1 := ctrlPhase st optRef
  let suffix := eventSuffix (st1.heap optRef)
  onPairs l optRef suffix ((st1.heap optRef).capture) st1
    (nodeTypePairs nodes types)

/-- One iteration of the nested `off()` loop (src/lib/events/index.js
254-265): when the table holds a registration under the key, invoke its
`off()` (the native removal with the stored listener and options); when it
does not and the call supplied a valid listener, fall back to a direct
native removal with the caller's listener.  The table entry is not
touched in either case. -/
def offStep (suffix : String) (userListener : Nat) (listenerOk : Bool)
    (optRef : Nat) (st : EvState) (node : Nat) (ty : String) : EvState :=
  let eid := ty ++ suffix
  match st.tables node eid with
  | some reg =>
    { st with
      native := removeNative st.native reg.node reg.type reg.listener
        ((st.heap reg.options).capture) }
  | none =>
    if listenerOk then
      { st with
        native := removeNative st.native node ty (.direct userListener)
          ((st.heap optRef).capture) }
    else st

/-- `off(target, types, options, listener)` after `$eventDef`
normalization.  `$eventDef` guarantees the listener argument passes
`isListener`, so callers of this model pass `listenerOk := true`. -/
def offCall (st : EvState) (nodes : List Nat) (types : List String)
    (optRef : Nat) (userListener : Nat) (listenerOk : Bool) : EvState :=
  let suffix := eventSuffix (st.heap optRef)
  (nodeTypePairs nodes types).foldl
    (fun s p => offStep suffix userListener listenerOk optRef s p.1 p.2) st

/-- A state with no registrations, an empty heap of default options
objects, and the allocator at a given start. -/
def evEmptyState (freshStart : Nat) : EvState :=
  { tables := fun _ _ => none
    audit := []
    native := []
    heap := fun _ => ⟨none, false, .undefined, none, []⟩
    fresh := freshStart }

/-! ## `build()` (src/lib/events/index.js 284-318)

`build` resolves a class name through the `EVENT_CLASSES` table and then
chooses a constructor.  Its guard reads

  `typeof HANDLER_PLUGINS[classname] === F && HANDLER_PLUGINS[classname].eventClass === F`

where `F` is the string constant `'function'` from `@lumjs/core`; the
second conjunct compares the `eventClass` property itself against that
string rather than testing its `typeof`.  The embedding keeps exactly that
comparison.  JavaScript values are embedded with function identity and an
`eventClass` property on functions (plugin classes are functions whose
static `eventClass` is what `registerPlugin`-time code put there). -/

/-- A JavaScript value in the plugin table / window namespace. -/
inductive JSVal where
  | undefined
  | str (s : String)
  | fn (id : Nat) (eventClass : JSVal)
deriving DecidableEq, Repr

/-- `typeof`. -/
def typeofV : JSVal → String
  | .undefined => "undefined"
  | .str _ => "string"
  | .fn _ _ => "function"

/-- Property read `v.eventClass` (only reached behind a
`typeof v === 'function'` guard in the source). -/
def getEventClassProp : JSVal → JSVal
  | .fn _ ec => ec
  | _ => .undefined

/-- An entry of the `EVENT_CLASSES` table: a class-name string, or the
`$add` helper method, which is a function-valued property of the same
object and hence also answers `type in EVENT_CLASSES`. -/
inductive EvClassEntry where
  | cls (name : String)
  | addFn
deriving DecidableEq, Repr

/-- The `EVENT_CLASSES` table (src/lib/events/index.js 45-66) after its
`$add` initialization chain has run. -/
def EVENT_CLASSES (t : String) : Option EvClassEntry :=
  if t = "_default" then some (.cls "Event")
  else if t = "_custom" then some (.cls "CustomEvent")
  else if t = "error" then some (.cls "UIEvent")
  else if t = "wheel" then some (.cls "WheelEvent")
  else if t = "$add" then some .addFn
  else if ["copy", "cut", "paste"].contains t then
    some (.cls "ClipboardEvent")
  else if ["blur", "focus", "focusin", "focusout"].contains t then
    some (.cls "FocusEvent")
  else if ["keydown", "keypress", "keyup"].contains t then
    some (.cls "KeyboardEvent")
  else if ["auxclick", "click", "contextmenu", "dblclick", "mousedown",
           "mouseenter", "mouseleave", "mousemove", "mouseout", "mouseover",
           "mouseup"].contains t then
    some (.cls "MouseEvent")
  else if ["touchcancel", "touchend", "touchmove", "touchstart"].contains t then
    some (.cls "TouchEvent")
  else none

/-- The class-name resolution of `build`: a table hit wins, otherwise
`CustomEvent` when the options carry a `detail` payload, else `Event`.
`none` is the `$add` corner where the table entry is the helper function
rather than a class-name string. -/
def resolveClassname (t : String) (hasDetail : Bool) : Option String :=
  match EVENT_CLASSES t with
  | some (.cls n) => some n
  | some .addFn => none
  | none => some (if hasDetail then "CustomEvent" else "Event")

/-- The namespaces `build` consults: the `HANDLER_PLUGINS` table and the
host `window`, both as name-indexed lookups (`undefined` when absent). -/
structure BuildEnv where
  plugins : String → JSVal
  window : String → JSVal

/-- The outcome of `build`: the constructor invoked with the type (and
options), or the thrown error message. -/
inductive BuildResult where
  | ok (ctor : JSVal) (type : String)
  | err (msg : String)
deriving DecidableEq, Repr

/-- `build(type, options)`, with `hasDetail` standing for
`'detail' in options`.  For the `$add` entry the resolved "class name" is
the helper function itself; no window constructor can exist under its
stringified key, so that branch is modelled as the thrown error. -/
def build (env : BuildEnv) (t : String) (hasDetail : Bool) : BuildResult :=
  match resolveClassname t hasDetail with
  | none => .err "no such event class: $add"
  | some cn =>
    let p := env.plugins cn
    let eventClass :=
      if typeofV p = "function" ∧ getEventClassProp p = JSVal.str "function"
      then getEventClassProp p
      else env.window cn
    if typeofV eventClass = "function" then .ok eventClass t
    else .err ("no such event class: " ++ cn)

/-! ## `trigger()` (src/lib/events/index.js 336-376)

Only event-object identity matters for C7, so `build` is modelled here as
drawing a fresh identity from a counter each time it is called; dispatches
are recorded as (node, event identity) pairs in call order. -/

/-- The `event` argument of `trigger`: a type-name string, an `Event`
object, or anything else (rejected). -/
inductive TriggerEvent where
  | str (s : String)
  | evObj (id : Nat)
  | other
deriving DecidableEq, Repr

/-- The dispatch loop of `trigger`: when the `event` variable is still a
string, a fresh event object is built for the node; otherwise the one
object is dispatched to every node. -/
def triggerLoop (ev : TriggerEvent) :
    List Nat → Nat → List (Nat × Nat) × Nat
  | [], ctr => ([], ctr)
  | n :: ns, ctr =>
    match ev with
    | .str _ =>
      let built := ctr
      let r := triggerLoop ev ns (ctr + 1)
      ((n, built) :: r.1, r.2)
    | .evObj i =>
      let r := triggerLoop ev ns ctr
      ((n, i) :: r.1, r.2)
    | .other => ([], ctr)

/-- `trigger(target, event, options)` over an already-normalized target
list: a string event is built once up front unless `newEventForEach` is
set, a non-`Event` non-string argument is rejected, and every target is
dispatched to in order. -/
def trigger (targets : List Nat) (ev : TriggerEvent)
    (newEventForEach : Bool) (ctr : Nat) :
    Except String (List (Nat × Nat) × Nat) :=
  match ev with
  | .str _ =>
    if !newEventForEach then
      let built := ctr
      .ok (triggerLoop (.evObj built) targets (ctr + 1))
    else
      .ok (triggerLoop ev targets ctr)
  | .evObj _ => .ok (triggerLoop ev targets ctr)
  | .other => .error "event must be a string or an Event object"

/-! ## Spec-side descriptions used by the claims -/

/-- Written from the claim for C10: the in-place mutation `on()` performs
on the caller's options object — `ctrl === true` becomes a fresh
`AbortController`, and a defined object `ctrl` donates its `signal` when
`signal` is undefined; every other field is untouched. -/
def optionsMutationSpec (o : EvOptions) (freshStart : Nat) : EvOptions :=
  match o.ctrl with
  | .vtrue =>
    { o with
      ctrl := .obj freshStart (freshStart + 1)
      signal := if o.signal = none then some (freshStart + 1) else o.signal }
  | .obj _ sid =>
    { o with signal := if o.signal = none then some sid else o.signal }
  | _ => o

/-- A whitespace-separated string, described from the spec side for C5: a
run of tokens, each followed by a whitespace separator, ending in a final
token. -/
def wsChain : List (String × String) → String → List Char
  | [], lastTok => lastTok.toList
  | (t, w) :: rest, lastTok => t.toList ++ w.toList ++ wsChain rest lastTok

/-- A valid type name: nonempty and whitespace-free. -/
def goodTok (t : String) : Prop :=
  t.toList ≠ [] ∧ ∀ c ∈ t.toList, jsWsChar c = false

/-- A valid separator: a nonempty whitespace run. -/
def goodSep (w : String) : Prop :=
  w.toList ≠ [] ∧ ∀ c ∈ w.toList, jsWsChar c = true

/-! ## Helper lemmas -/

theorem str_mk_toList (s : String) : String.mk s.toList = s := by
  cases s
  rfl

/-- The identity suffix reads only the selector and capture fields. -/
theorem eventSuffix_congr (o o' : EvOptions) (hsel : o.selector = o'.selector)
    (hcap : o.capture = o'.capture) : eventSuffix o = eventSuffix o' := by
  unfold eventSuffix
  rw [hsel, hcap]

/-! ## Claim C6 -/

/-- Claim C6: the identity key is a deterministic pure function of exactly
the (type, selector, capture) triple — two options objects agreeing on
selector and capture give the same key — and it equals the type followed by
the whitespace-stripped parenthesized selector (when present) followed by
the `:capture` suffix (when the capture flag is set). -/
theorem identity_key_deterministic (ty : String) (o o' : EvOptions)
    (hsel : o.selector = o'.selector) (hcap : o.capture = o'.capture) :
    eventKey ty o = eventKey ty o' ∧
    eventKey ty o =
      ty ++ (match o.selector with
             | some sel => "(" ++ stripWs sel ++ ")"
             | none => "") ++
        (if o.capture then ":capture" else "") := by
  constructor
  · unfold eventKey
    rw [eventSuffix_congr o o' hsel hcap]
  · unfold eventKey eventSuffix
    cases hs : o.selector <;> cases hc : o.capture <;>
      simp [String.append_assoc]

/-- Witness for C6 at a concrete triple: two different option objects with
the same selector and capture produce the same key, and the key has the
spelled-out shape. -/
theorem identity_key_deterministic_witness :
    eventKey "click" ⟨some " .a  .b ", true, .undefined, none, []⟩
        = eventKey "click" ⟨some " .a  .b ", true, .vtrue, some 7, [("once", 1)]⟩ ∧
    eventKey "click" ⟨some " .a  .b ", true, .undefined, none, []⟩
        = "click" ++ ("(" ++ stripWs " .a  .b " ++ ")") ++ ":capture" :=
  identity_key_deterministic "click" ⟨some " .a  .b ", true, .undefined, none, []⟩
    ⟨some " .a  .b ", true, .vtrue, some 7, [("once", 1)]⟩ rfl rfl

/-! ## Claim C2 -/

/-- Claim C2: `$eventDef` accepts the options and listener arguments in
either order — the arguments are swapped exactly when the value in the
options position passes the listener capability test, the call fails with
the invalid-listener error when neither candidate passes, and otherwise
the options value is normalized (bare string to `{selector}`, bare boolean
to `{capture}`, any other non-object to `{}`). -/
theorem either_order_normalization (o l : JsArg) :
    eventDefOL o l = eventDefOLSpec o l := by
  cases ho : isListener o <;> cases hl : isListener l <;>
    cases o <;> cases l <;>
      simp_all [eventDefOL, eventDefOLSpec, isListener, Id.run]

/-! ## Claim C4 -/

/-- The recursive walk agrees with the first-match-on-the-candidate-chain
description: nearest ancestor wins. -/
theorem findDelegate_eq_spec (origin : Nat) (t : DomNode) :
    findDelegate origin t = specDelegate origin t := by
  induction t with
  | nullNode => rfl
  | elem id m p ih =>
    by_cases hid : id = origin
    · simp [findDelegate, specDelegate, delegationChain, hid]
    · by_cases hm : m
      · simp [findDelegate, specDelegate, delegationChain, hid, hm]
      · simp only [findDelegate, specDelegate, delegationChain,
          if_neg hid, Bool.not_eq_true] at *
        simp [hm, List.find?_cons, ih, specDelegate]

/-- The origin node is never chosen as the delegate. -/
theorem findDelegate_ne_origin (origin : Nat) (t : DomNode) (d : Nat)
    (h : findDelegate origin t = some d) : d ≠ origin := by
  induction t with
  | nullNode => simp [findDelegate] at h
  | elem id m p ih =>
    by_cases hid : id = origin
    · simp [findDelegate, hid] at h
    · by_cases hm : m
      · simp [findDelegate, hid, hm] at h
        omega
      · simp [findDelegate, hid, hm] at h
        exact ih h

/-- Claim C4: for a delegated registration bound on origin node `N`, the
adapter resolves the delegate as the first selector-matching element
walking outward from the event target, stopping exclusively at `N`
(which never matches, even if it satisfies the selector); when no delegate
exists the user listener is not invoked and the event is untouched; when a
delegate exists the adapter attaches the non-enumerable `captureTarget`
property equal to `N` and invokes the user listener with the delegate as
receiver and the event as argument, returning its result. -/
theorem delegation_adapter (ρ : Type) (f : Nat → DEvent → ρ) (origin : Nat)
    (e : DEvent) :
    findDelegate origin e.target = specDelegate origin e.target ∧
    (∀ d, findDelegate origin e.target = some d → d ≠ origin) ∧
    (findDelegate origin e.target = none →
      delegatedListener f origin e = (e, none)) ∧
    (∀ d, findDelegate origin e.target = some d →
      delegatedListener f origin e = (coreDef e origin, some (f d (coreDef e origin))) ∧
      (coreDef e origin).captureTarget = some (origin, false) ∧
      (coreDef e origin).target = e.target) := by
  refine ⟨findDelegate_eq_spec origin e.target,
    fun d h => findDelegate_ne_origin origin e.target d h, ?_, ?_⟩
  · intro h
    simp [delegatedListener, h]
  · intro d h
    refine ⟨?_, rfl, rfl⟩
    simp [delegatedListener, h]

/-- Witness for C4: tree `root (id 0) > mid (id 1) > leaf (id 2)`, where
`mid` matches the selector, `root` also matches but is the origin, and
`leaf` does not match: the adapter fires the user listener with delegate
`mid`, not `root`, and attaches `captureTarget = root` non-enumerably. -/
theorem delegation_adapter_witness :
    delegatedListener (fun d _ => d) 0
        ⟨DomNode.elem 2 false (DomNode.elem 1 true (DomNode.elem 0 true DomNode.nullNode)), none⟩
      = (⟨DomNode.elem 2 false (DomNode.elem 1 true (DomNode.elem 0 true DomNode.nullNode)),
          some (0, false)⟩, some 1) ∧
    (1 : Nat) ≠ 0 :=
  have h := delegation_adapter Nat (fun d _ => d) 0
    ⟨DomNode.elem 2 false (DomNode.elem 1 true (DomNode.elem 0 true DomNode.nullNode)), none⟩
  ⟨(h.2.2.2 1 (by decide)).1, h.2.1 1 (by decide)⟩

/-! ## Claim C5 -/

theorem str_mk_data (s : String) : String.mk s.data = s := rfl

/-- Consuming a whitespace-free token just accumulates it. -/
theorem splitWsGo_token (t : List Char) (ht : ∀ c ∈ t, jsWsChar c = false) :
    ∀ (r acc : List Char),
      splitWsGo (t ++ r) acc false = splitWsGo r (t.reverse ++ acc) false := by
  induction t with
  | nil => intro r acc; rfl
  | cons c cs ih =>
    intro r acc
    have hc : jsWsChar c = false := ht c (List.mem_cons_self c cs)
    have ih2 := ih (fun x hx => ht x (List.mem_cons_of_mem c hx)) r (c :: acc)
    have step : splitWsGo ((c :: cs) ++ r) acc false
        = splitWsGo (cs ++ r) (c :: acc) false := by
      show (if jsWsChar c = true then
              (if (false : Bool) = true then splitWsGo (cs ++ r) acc false
               else String.mk acc.reverse :: splitWsGo (cs ++ r) [] true)
            else splitWsGo (cs ++ r) (c :: acc) false)
          = splitWsGo (cs ++ r) (c :: acc) false
      rw [hc]
      rfl
    calc splitWsGo ((c :: cs) ++ r) acc false
        = splitWsGo (cs ++ r) (c :: acc) false := step
      _ = splitWsGo r (cs.reverse ++ (c :: acc)) false := ih2
      _ = splitWsGo r ((c :: cs).reverse ++ acc) false := by
          rw [List.reverse_cons, List.append_assoc]
          rfl

/-- While inside a separator run, further whitespace is consumed without
effect. -/
theorem splitWsGo_skip (w : List Char) (hw : ∀ c ∈ w, jsWsChar c = true) :
    ∀ r, splitWsGo (w ++ r) [] true = splitWsGo r [] true := by
  induction w with
  | nil => intro r; rfl
  | cons c cs ih =>
    intro r
    have hc : jsWsChar c = true := hw c (List.mem_cons_self c cs)
    have step : splitWsGo ((c :: cs) ++ r) [] true
        = splitWsGo (cs ++ r) [] true := by
      show (if jsWsChar c = true then
              (if (true : Bool) = true then splitWsGo (cs ++ r) [] true
               else String.mk List.nil.reverse :: splitWsGo (cs ++ r) [] true)
            else splitWsGo (cs ++ r) (c :: []) false)
          = splitWsGo (cs ++ r) [] true
      rw [hc]
      rfl
    rw [step]
    exact ih (fun x hx => hw x (List.mem_cons_of_mem c hx)) r

/-- On a non-whitespace head the separator-run flag is irrelevant. -/
theorem splitWsGo_start (c : Char) (cs : List Char) (hc : jsWsChar c = false)
    (b : Bool) : splitWsGo (c :: cs) [] b = splitWsGo cs [c] false := by
  cases b <;>
    · show (if jsWsChar c = true then _ else splitWsGo cs (c :: []) false)
          = splitWsGo cs [c] false
      rw [hc]
      rfl

/-- A chain of good tokens starts with a non-whitespace character. -/
theorem wsChain_head (ps : List (String × String)) (lastTok : String)
    (hps : ∀ p ∈ ps, goodTok p.1) (hlast : goodTok lastTok) :
    ∃ c cs, wsChain ps lastTok = c :: cs ∧ jsWsChar c = false := by
  cases ps with
  | nil =>
    cases hl : lastTok.toList with
    | nil => exact absurd hl hlast.1
    | cons c cs =>
      refine ⟨c, cs, ?_, hlast.2 c ?_⟩
      · exact hl
      · rw [hl]; exact List.mem_cons_self c cs
  | cons p rest =>
    have hp := hps p (List.mem_cons_self p rest)
    cases hl : p.1.toList with
    | nil => exact absurd hl hp.1
    | cons c cs =>
      refine ⟨c, (cs ++ p.2.toList) ++ wsChain rest lastTok, ?_, hp.2 c ?_⟩
      · show (p.1.toList ++ p.2.toList) ++ wsChain rest lastTok
            = c :: ((cs ++ p.2.toList) ++ wsChain rest lastTok)
        rw [hl]
        rfl
      · rw [hl]; exact List.mem_cons_self c cs

/-- JavaScript `split(/\s+/)` on a whitespace-separated chain of good
tokens returns exactly the tokens. -/
theorem splitWsGo_chain :
    ∀ (ps : List (String × String)) (lastTok : String),
      (∀ p ∈ ps, goodTok p.1 ∧ goodSep p.2) → goodTok lastTok →
      splitWsGo (wsChain ps lastTok) [] false
        = ps.map (fun p => p.1) ++ [lastTok] := by
  intro ps
  induction ps with
  | nil =>
    intro lastTok _ hlast
    have h := splitWsGo_token lastTok.toList hlast.2 [] []
    rw [List.append_nil] at h
    show splitWsGo lastTok.toList [] false = [lastTok]
    rw [h, List.append_nil]
    show [String.mk lastTok.toList.reverse.reverse] = [lastTok]
    rw [List.reverse_reverse]
    show [String.mk lastTok.data] = [lastTok]
    rw [str_mk_data]
  | cons p rest ih =>
    intro lastTok hgood hlast
    obtain ⟨⟨ht1, ht2⟩, hs1, hs2⟩ := hgood p (List.mem_cons_self p rest)
    have hrest : ∀ q ∈ rest, goodTok q.1 ∧ goodSep q.2 :=
      fun q hq => hgood q (List.mem_cons_of_mem p hq)
    obtain ⟨c0, cs0, hchain, hc0⟩ :=
      wsChain_head rest lastTok (fun q hq => (hrest q hq).1) hlast
    cases hw : p.2.toList with
    | nil => exact absurd hw hs1
    | cons w ws =>
      have hwws : jsWsChar w = true := hs2 w (by rw [hw]; exact List.mem_cons_self w ws)
      have hws : ∀ x ∈ ws, jsWsChar x = true :=
        fun x hx => hs2 x (by rw [hw]; exact List.mem_cons_of_mem w hx)
      have e1 : wsChain (p :: rest) lastTok
          = p.1.toList ++ ((w :: ws) ++ wsChain rest lastTok) := by
        show (p.1.toList ++ p.2.toList) ++ wsChain rest lastTok = _
        rw [hw, List.append_assoc]
      rw [show splitWsGo (wsChain (p :: rest) lastTok) [] false
            = splitWsGo (p.1.toList ++ ((w :: ws) ++ wsChain rest lastTok)) [] false
          from by rw [e1]]
      rw [splitWsGo_token p.1.toList ht2, List.append_nil]
      have e2 : splitWsGo ((w :: ws) ++ wsChain rest lastTok) p.1.toList.reverse false
          = String.mk p.1.toList.reverse.reverse
              :: splitWsGo (ws ++ wsChain rest lastTok) [] true := by
        show (if jsWsChar w = true then
                (if (false : Bool) = true
                 then splitWsGo (ws ++ wsChain rest lastTok) p.1.toList.reverse false
                 else String.mk p.1.toList.reverse.reverse
                   :: splitWsGo (ws ++ wsChain rest lastTok) [] true)
              else splitWsGo (ws ++ wsChain rest lastTok) (w :: p.1.toList.reverse) false)
            = _
        rw [hwws]
        rfl
      rw [e2, splitWsGo_skip ws hws, List.reverse_reverse]
      rw [show String.mk p.1.toList = p.1 from str_mk_data p.1]
      rw [hchain, splitWsGo_start c0 cs0 hc0 true, ← splitWsGo_start c0 cs0 hc0 false,
        ← hchain]
      rw [ih lastTok hrest hlast]
      rfl

/-- Counterexample for C5 as stated: splitting the empty (or
whitespace-only) types string yields the one-element list containing the
empty string, not the empty list. -/
theorem types_normalization_counterexample :
    typesOf "" = [""] ∧ typesOf " " = [""] ∧ ([""] : List String) ≠ [] :=
  ⟨by decide, by decide, by decide⟩

/-- Claim C5 (amended): normalization splits the whitespace-separated
types string into the list of individual type names, but an empty or
whitespace-only string yields the one-element list containing the empty
string — so a register/unregister call over it processes the empty type
name once — rather than yielding an empty list. -/
theorem types_normalization (s : String) :
    (jsTrimChars s.toList = [] → typesOf s = [""]) ∧
    (∀ (ps : List (String × String)) (lastTok : String),
      (∀ p ∈ ps, goodTok p.1 ∧ goodSep p.2) → goodTok lastTok →
      jsTrimChars s.toList = wsChain ps lastTok →
      typesOf s = ps.map (fun p => p.1) ++ [lastTok]) := by
  constructor
  · intro h
    show splitWsGo (jsTrimChars s.toList) [] false = [""]
    rw [h]
    rfl
  · intro ps lastTok hps hlast h
    show splitWsGo (jsTrimChars s.toList) [] false = _
    rw [h]
    exact splitWsGo_chain ps lastTok hps hlast

/-- Witness for C5 (amended) at concrete inputs: a two-name string splits
into the two names, and the empty string yields `[""]`. -/
theorem types_normalization_witness :
    typesOf " click  focus " = ["click", "focus"] ∧ typesOf "" = [""] :=
  ⟨(types_normalization " click  focus ").2 [("click", "  ")] "focus"
      (by
        intro p hp
        rw [List.mem_singleton] at hp
        subst hp
        exact ⟨⟨by decide, by decide⟩, by decide, by decide⟩)
      ⟨by decide, by decide⟩
      (by decide),
   (types_normalization "").1 (by decide)⟩
/-! ## Claim C7 -/

/-- The dispatch loop on a still-string event builds one fresh event per
node, in order. -/
theorem triggerLoop_str (s : String) :
    ∀ (ts : List Nat) (c : Nat),
      triggerLoop (.str s) ts c
        = (ts.zip (List.range' c ts.length), c + ts.length) := by
  intro ts
  induction ts with
  | nil => intro c; rfl
  | cons n ns ih =>
    intro c
    show ((n, c) :: (triggerLoop (.str s) ns (c + 1)).1,
          (triggerLoop (.str s) ns (c + 1)).2)
        = ((n :: ns).zip (List.range' c (n :: ns).length), c + (n :: ns).length)
    rw [ih (c + 1)]
    simp [List.range'_succ]
    omega

/-- The dispatch loop on a prebuilt event object dispatches that same
object to every node, in order, allocating nothing. -/
theorem triggerLoop_obj (i : Nat) :
    ∀ (ts : List Nat) (c : Nat),
      triggerLoop (.evObj i) ts c = (ts.map (fun n => (n, i)), c) := by
  intro ts
  induction ts with
  | nil => intro c; rfl
  | cons n ns ih =>
    intro c
    show ((n, i) :: (triggerLoop (.evObj i) ns c).1,
          (triggerLoop (.evObj i) ns c).2)
        = ((n :: ns).map (fun n => (n, i)), c)
    rw [ih c]
    rfl

/-- Claim C7: triggering a type-name string with `newEventForEach` set
builds one fresh event object per target, so the dispatched event
identities are pairwise distinct and follow the target order; without it a
single event object is built once and that same object is dispatched,
sequentially in target order, to every target. -/
theorem trigger_event_identities (ts : List Nat) (s : String) (c : Nat) :
    trigger ts (.str s) true c
      = .ok (ts.zip (List.range' c ts.length), c + ts.length) ∧
    (ts.zip (List.range' c ts.length)).map Prod.fst = ts ∧
    ((ts.zip (List.range' c ts.length)).map Prod.snd).Nodup ∧
    trigger ts (.str s) false c = .ok (ts.map (fun n => (n, c)), c + 1) := by
  have hlen : (List.range' c ts.length).length = ts.length := List.length_range' ..
  refine ⟨?_, ?_, ?_, ?_⟩
  · show Except.ok (triggerLoop (.str s) ts c) = _
    rw [triggerLoop_str s ts c]
  · exact List.map_fst_zip ts (List.range' c ts.length) (le_of_eq hlen.symm)
  · rw [List.map_snd_zip ts (List.range' c ts.length) (le_of_eq hlen)]
    exact List.nodup_range' ..
  · show Except.ok (triggerLoop (.evObj c) ts (c + 1)) = _
    rw [triggerLoop_obj c ts (c + 1)]

/-! ## Claim C9 -/

/-- Claim C9: when the resolved class name has a plugin-registry entry (a
function, as `registerPlugin` stores classes) whose static `eventClass` is
itself a function, `build` still constructs the event through the host
window constructor for that class name — the guard compares `eventClass`
against the string constant `'function'` instead of testing its `typeof`,
so it never selects the plugin's class — and `build` throws exactly when
the window constructor is missing. -/
theorem build_ignores_plugin_eventclass (env : BuildEnv) (t : String)
    (hasDetail : Bool) (cn : String) (pid : Nat) (ec : JSVal)
    (hres : resolveClassname t hasDetail = some cn)
    (hplug : env.plugins cn = .fn pid ec)
    (hecfn : typeofV ec = "function") :
    build env t hasDetail =
      (if typeofV (env.window cn) = "function"
       then .ok (env.window cn) t
       else .err ("no such event class: " ++ cn)) := by
  cases ec with
  | undefined => simp [typeofV] at hecfn
  | str s => simp [typeofV] at hecfn
  | fn ecid inner =>
    simp [build, hres, hplug, typeofV, getEventClassProp]

/-- Witness for C9: a plugin registered under `MouseEvent` with a
function-valued `eventClass`; `build('click', {})` still returns the
window's `MouseEvent` constructor. -/
theorem build_ignores_plugin_eventclass_witness :
    build
      ⟨fun cn => if cn = "MouseEvent" then .fn 1 (.fn 2 .undefined) else .undefined,
       fun cn => if cn = "MouseEvent" then .fn 3 .undefined else .undefined⟩
      "click" false
      = .ok (.fn 3 .undefined) "click" := by
  have h := build_ignores_plugin_eventclass
    ⟨fun cn => if cn = "MouseEvent" then .fn 1 (.fn 2 .undefined) else .undefined,
     fun cn => if cn = "MouseEvent" then .fn 3 .undefined else .undefined⟩
    "click" false "MouseEvent" 1 (.fn 2 .undefined) (by decide) (by decide) (by decide)
  rw [h]
  rfl

/-! ## State-machine helper lemmas -/

/-- The ctrl phase touches only the heap and the allocator. -/
theorem ctrlPhase_frame (st : EvState) (oR : Nat) :
    (ctrlPhase st oR).tables = st.tables ∧ (ctrlPhase st oR).native = st.native ∧
    (ctrlPhase st oR).audit = st.audit := by
  cases hc : (st.heap oR).ctrl <;> cases hs : (st.heap oR).signal <;>
    simp [ctrlPhase, hc, hs]

/-- At the options reference, the ctrl phase performs exactly the
spec-side mutation. -/
theorem ctrlPhase_heap_at (st : EvState) (oR : Nat) :
    (ctrlPhase st oR).heap oR = optionsMutationSpec (st.heap oR) st.fresh := by
  cases hc : (st.heap oR).ctrl <;> cases hs : (st.heap oR).signal <;>
    simp [ctrlPhase, optionsMutationSpec, hc, hs] <;>
    rw [← hc, ← hs]

/-- Away from the options reference, the ctrl phase leaves the heap
alone. -/
theorem ctrlPhase_heap_other (st : EvState) (oR r : Nat) (h : r ≠ oR) :
    (ctrlPhase st oR).heap r = st.heap r := by
  cases hc : (st.heap oR).ctrl <;> cases hs : (st.heap oR).signal <;>
    simp [ctrlPhase, hc, hs, h]

/-- The spec-side mutation touches only the ctrl and signal fields. -/
theorem optionsMutationSpec_fields (o : EvOptions) (f : Nat) :
    (optionsMutationSpec o f).selector = o.selector ∧
    (optionsMutationSpec o f).capture = o.capture ∧
    (optionsMutationSpec o f).extra = o.extra := by
  cases hc : o.ctrl <;> simp [optionsMutationSpec, hc]

/-- `off()` never touches the per-node tables. -/
theorem offStep_tables (sfx : String) (uL : Nat) (ok : Bool) (oR : Nat)
    (st : EvState) (n : Nat) (t : String) :
    (offStep sfx uL ok oR st n t).tables = st.tables := by
  simp only [offStep]
  split
  · rfl
  · split <;> rfl

/-- `off()` over any pair list never touches the per-node tables. -/
theorem offFold_tables (sfx : String) (uL : Nat) (ok : Bool) (oR : Nat) :
    ∀ (ps : List (Nat × String)) (st : EvState),
      (ps.foldl (fun s p => offStep sfx uL ok oR s p.1 p.2) st).tables
        = st.tables := by
  intro ps
  induction ps with
  | nil => intro st; rfl
  | cons p ps ih =>
    intro st
    rw [List.foldl_cons, ih, offStep_tables]

/-- An errored `onStep` leaves the state untouched. -/
theorem onStep_error_state (l : StoredListener) (oR : Nat) (sfx : String)
    (cap : Bool) (st st1 : EvState) (n : Nat) (t : String) (e : String)
    (h : onStep l oR sfx cap st n t = (st1, some e)) : st1 = st := by
  simp only [onStep] at h
  split at h
  · cases h; rfl
  · simp at h

/-- A successful `onStep` creates exactly the expected registration: the
table entry under the key, the audit record, and the native binding. -/
theorem onStep_ok_creates (l : StoredListener) (oR : Nat) (sfx : String)
    (cap : Bool) (st st1 : EvState) (n : Nat) (t : String)
    (h : onStep l oR sfx cap st n t = (st1, none)) :
    st1.tables n (t ++ sfx) = some ⟨n, t, l, oR⟩ ∧
    (⟨n, t, l, oR⟩ : Registration) ∈ st1.audit ∧
    (⟨n, t, l, cap, oR⟩ : NativeEntry) ∈ st1.native := by
  simp only [onStep] at h
  split at h
  · simp at h
  · cases h
    refine ⟨by simp, ?_, ?_⟩
    · exact List.mem_append_right _ (List.mem_singleton.mpr rfl)
    · exact List.mem_append_right _ (List.mem_singleton.mpr rfl)

/-- `onStep` never removes or overwrites an existing table entry. -/
theorem onStep_tables_mono (l : StoredListener) (oR : Nat) (sfx : String)
    (cap : Bool) (st st1 : EvState) (n : Nat) (t : String) (e : Option String)
    (h : onStep l oR sfx cap st n t = (st1, e))
    (n0 : Nat) (k0 : String) (r : Registration)
    (hr : st.tables n0 k0 = some r) : st1.tables n0 k0 = some r := by
  simp only [onStep] at h
  split at h
  · cases h; exact hr
  · rename_i hnone
    cases h
    show (if n0 = n then (if k0 = t ++ sfx then _ else st.tables n0 k0)
          else st.tables n0 k0) = some r
    by_cases hn : n0 = n
    · subst hn
      by_cases hk : k0 = t ++ sfx
      · rw [hk] at hr
        rw [hr] at hnone
        cases hnone
      · simp [hk, hr]
    · simp [hn, hr]

/-- `onStep` never unbinds a native entry. -/
theorem onStep_native_mono (l : StoredListener) (oR : Nat) (sfx : String)
    (cap : Bool) (st st1 : EvState) (n : Nat) (t : String) (e : Option String)
    (h : onStep l oR sfx cap st n t = (st1, e))
    (ne : NativeEntry) (hne : ne ∈ st.native) : ne ∈ st1.native := by
  simp only [onStep] at h
  split at h
  · cases h; exact hne
  · cases h; exact List.mem_append_left _ hne

/-- `onStep` never removes an audit record. -/
theorem onStep_audit_mono (l : StoredListener) (oR : Nat) (sfx : String)
    (cap : Bool) (st st1 : EvState) (n : Nat) (t : String) (e : Option String)
    (h : onStep l oR sfx cap st n t = (st1, e))
    (rg : Registration) (hrg : rg ∈ st.audit) : rg ∈ st1.audit := by
  simp only [onStep] at h
  split at h
  · cases h; exact hrg
  · cases h; exact List.mem_append_left _ hrg

/-- Every audit record added by `onStep` carries the call's options
reference. -/
theorem onStep_audit_sub (l : StoredListener) (oR : Nat) (sfx : String)
    (cap : Bool) (st st1 : EvState) (n : Nat) (t : String) (e : Option String)
    (h : onStep l oR sfx cap st n t = (st1, e))
    (rg : Registration) (hrg : rg ∈ st1.audit) :
    rg ∈ st.audit ∨ rg.options = oR := by
  simp only [onStep] at h
  split at h
  · cases h; exact Or.inl hrg
  · cases h
    rcases List.mem_append.mp hrg with h1 | h1
    · exact Or.inl h1
    · right
      rw [List.mem_singleton] at h1
      rw [h1]

/-- `onStep` does not touch the heap. -/
theorem onStep_heap (l : StoredListener) (oR : Nat) (sfx : String) (cap : Bool)
    (st : EvState) (n : Nat) (t : String) :
    ((onStep l oR sfx cap st n t).1).heap = st.heap := by
  simp only [onStep]
  split <;> rfl

/-- The `on()` loop does not touch the heap. -/
theorem onPairs_heap (l : StoredListener) (oR : Nat) (sfx : String) (cap : Bool) :
    ∀ (ps : List (Nat × String)) (st : EvState),
      ((onPairs l oR sfx cap st ps).1).heap = st.heap := by
  intro ps
  induction ps with
  | nil => intro st; rfl
  | cons p ps ih =>
    intro st
    have hh := onStep_heap l oR sfx cap st p.1 p.2
    simp only [onPairs]
    cases h : onStep l oR sfx cap st p.1 p.2 with
    | mk st1 e =>
      rw [h] at hh
      cases e with
      | none =>
        show ((onPairs l oR sfx cap st1 ps).1).heap = st.heap
        rw [ih st1]
        exact hh
      | some msg => exact hh

/-- Table entries survive the rest of the `on()` loop. -/
theorem onPairs_tables_mono (l : StoredListener) (oR : Nat) (sfx : String)
    (cap : Bool) :
    ∀ (ps : List (Nat × String)) (st : EvState) (n0 : Nat) (k0 : String)
      (r : Registration), st.tables n0 k0 = some r →
      ((onPairs l oR sfx cap st ps).1).tables n0 k0 = some r := by
  intro ps
  induction ps with
  | nil => intro st n0 k0 r hr; exact hr
  | cons p ps ih =>
    intro st n0 k0 r hr
    simp only [onPairs]
    cases h : onStep l oR sfx cap st p.1 p.2 with
    | mk st1 e =>
      have h1 := onStep_tables_mono l oR sfx cap st st1 p.1 p.2 e h n0 k0 r hr
      cases e with
      | none => exact ih st1 n0 k0 r h1
      | some msg => exact h1

/-- Native bindings survive the rest of the `on()` loop. -/
theorem onPairs_native_mono (l : StoredListener) (oR : Nat) (sfx : String)
    (cap : Bool) :
    ∀ (ps : List (Nat × String)) (st : EvState) (ne : NativeEntry),
      ne ∈ st.native → ne ∈ ((onPairs l oR sfx cap st ps).1).native := by
  intro ps
  induction ps with
  | nil => intro st ne hne; exact hne
  | cons p ps ih =>
    intro st ne hne
    simp only [onPairs]
    cases h : onStep l oR sfx cap st p.1 p.2 with
    | mk st1 e =>
      have h1 := onStep_native_mono l oR sfx cap st st1 p.1 p.2 e h ne hne
      cases e with
      | none => exact ih st1 ne h1
      | some msg => exact h1

/-- Audit records survive the rest of the `on()` loop. -/
theorem onPairs_audit_mono (l : StoredListener) (oR : Nat) (sfx : String)
    (cap : Bool) :
    ∀ (ps : List (Nat × String)) (st : EvState) (rg : Registration),
      rg ∈ st.audit → rg ∈ ((onPairs l oR sfx cap st ps).1).audit := by
  intro ps
  induction ps with
  | nil => intro st rg hrg; exact hrg
  | cons p ps ih =>
    intro st rg hrg
    simp only [onPairs]
    cases h : onStep l oR sfx cap st p.1 p.2 with
    | mk st1 e =>
      have h1 := onStep_audit_mono l oR sfx cap st st1 p.1 p.2 e h rg hrg
      cases e with
      | none => exact ih st1 rg h1
      | some msg => exact h1

/-- Every audit record present after the `on()` loop was either already
there or carries the call's options reference. -/
theorem onPairs_audit_sub (l : StoredListener) (oR : Nat) (sfx : String)
    (cap : Bool) :
    ∀ (ps : List (Nat × String)) (st : EvState) (rg : Registration),
      rg ∈ ((onPairs l oR sfx cap st ps).1).audit →
      rg ∈ st.audit ∨ rg.options = oR := by
  intro ps
  induction ps with
  | nil => intro st rg hrg; exact Or.inl hrg
  | cons p ps ih =>
    intro st rg hrg
    simp only [onPairs] at hrg
    cases h : onStep l oR sfx cap st p.1 p.2 with
    | mk st1 e =>
      rw [h] at hrg
      cases e with
      | none =>
        rcases ih st1 rg hrg with h1 | h1
        · exact onStep_audit_sub l oR sfx cap st st1 p.1 p.2 none h rg h1
        · exact Or.inr h1
      | some msg =>
        exact onStep_audit_sub l oR sfx cap st st1 p.1 p.2 (some msg) h rg hrg

/-- A single-pair `on()` loop over an already-registered key fails with
the duplicate-registration error and returns the state unchanged. -/
theorem onPairs_single_dup (l : StoredListener) (oR : Nat) (sfx : String)
    (cap : Bool) (st : EvState) (n : Nat) (t : String) (r : Registration)
    (h : st.tables n (t ++ sfx) = some r) :
    onPairs l oR sfx cap st [(n, t)]
      = (st, some "Cannot re-assign an event without removing the old one first") := by
  have hstep : onStep l oR sfx cap st n t
      = (st, some "Cannot re-assign an event without removing the old one first") := by
    show (match st.tables n (t ++ sfx) with
          | some _ =>
            (st, some "Cannot re-assign an event without removing the old one first")
          | none => _)
        = (st, some "Cannot re-assign an event without removing the old one first")
    rw [h]
  show (match onStep l oR sfx cap st n t with
        | (st1, none) => onPairs l oR sfx cap st1 []
        | (st1, some e) => (st1, some e)) = _
  rw [hstep]

/-! ## Claim C1 -/

/-- Claim C1 (code evaluation at the failing input): `off()` never deletes
a table entry — after `on(node, "click", {}, f)` followed by
`off(node, "click", {}, f)` with identical arguments the native binding is
gone, but the per-node registration table still holds the entry under the
identity key, so an immediately following identical `on()` fails with the
duplicate-registration error instead of succeeding.  The first conjunct
shows `off()` leaves every table of every state untouched in general. -/
theorem unregister_leaves_table_entry :
    (∀ (st : EvState) (nodes : List Nat) (types : List String)
      (oR uL : Nat) (ok : Bool),
      (offCall st nodes types oR uL ok).tables = st.tables) ∧
    (onCall (evEmptyState 10) [0] ["click"] 0 5).2 = none ∧
    (offCall (onCall (evEmptyState 10) [0] ["click"] 0 5).1
        [0] ["click"] 0 5 true).native = [] ∧
    (offCall (onCall (evEmptyState 10) [0] ["click"] 0 5).1
        [0] ["click"] 0 5 true).tables 0 "click"
      = some ⟨0, "click", .direct 5, 0⟩ ∧
    (onCall (offCall (onCall (evEmptyState 10) [0] ["click"] 0 5).1
        [0] ["click"] 0 5 true) [0] ["click"] 0 5).2
      = some "Cannot re-assign an event without removing the old one first" := by
  refine ⟨?_, by decide, by decide, by decide, by decide⟩
  intro st nodes types oR uL ok
  show ((nodeTypePairs nodes types).foldl _ st).tables = st.tables
  exact offFold_tables _ uL ok oR (nodeTypePairs nodes types) st

/-! ## Claim C3 -/

/-- Claim C3: a second `on()` for the same node, type, selector and
capture flag (same identity key) without an intervening removal fails with
the duplicate-registration error, and the failed call leaves the per-node
tables, the native bindings and the registry's audit list unchanged. -/
theorem duplicate_registration_blocks (st : EvState) (node : Nat) (ty : String)
    (optRef userListener : Nat)
    (h : (st.tables node (ty ++ eventSuffix (st.heap optRef))).isSome = true) :
    (onCall st [node] [ty] optRef userListener).2
      = some "Cannot re-assign an event without removing the old one first" ∧
    (onCall st [node] [ty] optRef userListener).1.tables = st.tables ∧
    (onCall st [node] [ty] optRef userListener).1.native = st.native ∧
    (onCall st [node] [ty] optRef userListener).1.audit = st.audit := by
  obtain ⟨r, hr⟩ := Option.isSome_iff_exists.mp h
  have hframe := ctrlPhase_frame st optRef
  have hfields := optionsMutationSpec_fields (st.heap optRef) st.fresh
  have hsfx : eventSuffix ((ctrlPhase st optRef).heap optRef)
      = eventSuffix (st.heap optRef) := by
    rw [ctrlPhase_heap_at]
    exact eventSuffix_congr _ _ hfields.1 hfields.2.1
  have hlook : (ctrlPhase st optRef).tables node
      (ty ++ eventSuffix ((ctrlPhase st optRef).heap optRef)) = some r := by
    rw [hframe.1, hsfx]
    exact hr
  have hcall : onCall st [node] [ty] optRef userListener
      = (ctrlPhase st optRef,
         some "Cannot re-assign an event without removing the old one first") := by
    show onPairs
        (match (st.heap optRef).selector with
         | some sel => StoredListener.delegated sel userListener
         | none => .direct userListener)
        optRef (eventSuffix ((ctrlPhase st optRef).heap optRef))
        (((ctrlPhase st optRef).heap optRef).capture)
        (ctrlPhase st optRef) [(node, ty)] = _
    exact onPairs_single_dup _ optRef _ _ _ node ty r hlook
  rw [hcall]
  exact ⟨rfl, hframe.1, hframe.2.1, hframe.2.2⟩

/-- Witness for C3 at a concrete input: after registering `click` on node
0, an identical second registration fails and changes nothing. -/
theorem duplicate_registration_blocks_witness :
    (onCall (onCall (evEmptyState 10) [0] ["click"] 0 5).1 [0] ["click"] 0 5).2
      = some "Cannot re-assign an event without removing the old one first" ∧
    (onCall (onCall (evEmptyState 10) [0] ["click"] 0 5).1 [0] ["click"] 0 5).1.tables
      = (onCall (evEmptyState 10) [0] ["click"] 0 5).1.tables ∧
    (onCall (onCall (evEmptyState 10) [0] ["click"] 0 5).1 [0] ["click"] 0 5).1.native
      = (onCall (evEmptyState 10) [0] ["click"] 0 5).1.native ∧
    (onCall (onCall (evEmptyState 10) [0] ["click"] 0 5).1 [0] ["click"] 0 5).1.audit
      = (onCall (evEmptyState 10) [0] ["click"] 0 5).1.audit :=
  duplicate_registration_blocks (onCall (evEmptyState 10) [0] ["click"] 0 5).1
    0 "click" 0 5 (by decide)

/-! ## Claim C8 -/

/-- Claim C8: when the `on()` loop over node/type pairs raises partway,
processing stops at the first failing pair (the final state is exactly the
state after the successful prefix, and the failing step itself changes
nothing), the error propagates to the caller, and every binding created
earlier in the same call remains in place: its table entry, its audit
record, and its native binding are all present in the final state. -/
theorem partial_failure_keeps_earlier_bindings (l : StoredListener)
    (optRef : Nat) (suffix : String) (cap : Bool) :
    ∀ (ps : List (Nat × String)) (st st1 : EvState) (e : String),
      onPairs l optRef suffix cap st ps = (st1, some e) →
      ∃ ps1 p ps2, ps = ps1 ++ p :: ps2 ∧
        (onPairs l optRef suffix cap st ps1).2 = none ∧
        st1 = (onPairs l optRef suffix cap st ps1).1 ∧
        onStep l optRef suffix cap st1 p.1 p.2 = (st1, some e) ∧
        ∀ q ∈ ps1,
          st1.tables q.1 (q.2 ++ suffix) = some ⟨q.1, q.2, l, optRef⟩ ∧
          (⟨q.1, q.2, l, optRef⟩ : Registration) ∈ st1.audit ∧
          (⟨q.1, q.2, l, cap, optRef⟩ : NativeEntry) ∈ st1.native := by
  intro ps
  induction ps with
  | nil =>
    intro st st1 e h
    exact Option.noConfusion (congrArg Prod.snd h)
  | cons p0 ps0 ih =>
    intro st st1 e h
    simp only [onPairs] at h
    cases hstep : onStep l optRef suffix cap st p0.1 p0.2 with
    | mk stA e0 =>
      rw [hstep] at h
      cases e0 with
      | some e0v =>
        have hA : stA = st :=
          onStep_error_state l optRef suffix cap st stA p0.1 p0.2 e0v hstep
        cases h
        refine ⟨[], p0, ps0, rfl, rfl, ?_, ?_, by intro q hq; cases hq⟩
        · exact hA
        · rw [hA] at hstep ⊢
          exact hstep
      | none =>
        obtain ⟨ps1, p, ps2, hsplit, hpref, hst1, hfail, hprev⟩ := ih stA st1 e h
        refine ⟨p0 :: ps1, p, ps2, by rw [hsplit, List.cons_append], ?_, ?_, hfail, ?_⟩
        · show (match onStep l optRef suffix cap st p0.1 p0.2 with
                | (s, none) => onPairs l optRef suffix cap s ps1
                | (s, some err) => (s, some err)).2 = none
          rw [hstep]
          exact hpref
        · show st1 = (match onStep l optRef suffix cap st p0.1 p0.2 with
                | (s, none) => onPairs l optRef suffix cap s ps1
                | (s, some err) => (s, some err)).1
          rw [hstep]
          exact hst1
        · intro q hq
          rcases List.mem_cons.mp hq with hq0 | hq1
          · subst hq0
            have hc := onStep_ok_creates l optRef suffix cap st stA q.1 q.2 hstep
            rw [hst1]
            exact ⟨onPairs_tables_mono l optRef suffix cap ps1 stA q.1
                (q.2 ++ suffix) _ hc.1,
              onPairs_audit_mono l optRef suffix cap ps1 stA _ hc.2.1,
              onPairs_native_mono l optRef suffix cap ps1 stA _ hc.2.2⟩
          · exact hprev q hq1

/-- Witness for C8 at a concrete input: with `click` already registered on
node 0, binding the types `focus click blur` fails at the second pair, and
the final state is the prefix state in which the `focus` binding (table,
audit and native) survives. -/
theorem partial_failure_keeps_earlier_bindings_witness :
    ∃ ps1 p ps2,
      [((0 : Nat), "focus"), (0, "click"), (0, "blur")] = ps1 ++ p :: ps2 ∧
      (onPairs (.direct 5) 0 "" false
          (onCall (evEmptyState 10) [0] ["click"] 0 5).1 ps1).2 = none ∧
      (onPairs (.direct 5) 0 "" false
          (onCall (evEmptyState 10) [0] ["click"] 0 5).1
          [(0, "focus"), (0, "click"), (0, "blur")]).1
        = (onPairs (.direct 5) 0 "" false
            (onCall (evEmptyState 10) [0] ["click"] 0 5).1 ps1).1 ∧
      onStep (.direct 5) 0 "" false
          (onPairs (.direct 5) 0 "" false
            (onCall (evEmptyState 10) [0] ["click"] 0 5).1
            [(0, "focus"), (0, "click"), (0, "blur")]).1 p.1 p.2
        = ((onPairs (.direct 5) 0 "" false
              (onCall (evEmptyState 10) [0] ["click"] 0 5).1
              [(0, "focus"), (0, "click"), (0, "blur")]).1,
           some "Cannot re-assign an event without removing the old one first") ∧
      ∀ q ∈ ps1,
        (onPairs (.direct 5) 0 "" false
            (onCall (evEmptyState 10) [0] ["click"] 0 5).1
            [(0, "focus"), (0, "click"), (0, "blur")]).1.tables q.1 (q.2 ++ "")
          = some ⟨q.1, q.2, .direct 5, 0⟩ ∧
        (⟨q.1, q.2, .direct 5, 0⟩ : Registration)
          ∈ (onPairs (.direct 5) 0 "" false
              (onCall (evEmptyState 10) [0] ["click"] 0 5).1
              [(0, "focus"), (0, "click"), (0, "blur")]).1.audit ∧
        (⟨q.1, q.2, .direct 5, false, 0⟩ : NativeEntry)
          ∈ (onPairs (.direct 5) 0 "" false
              (onCall (evEmptyState 10) [0] ["click"] 0 5).1
              [(0, "focus"), (0, "click"), (0, "blur")]).1.native :=
  partial_failure_keeps_earlier_bindings (.direct 5) 0 "" false
    [(0, "focus"), (0, "click"), (0, "blur")]
    (onCall (evEmptyState 10) [0] ["click"] 0 5).1
    (onPairs (.direct 5) 0 "" false
      (onCall (evEmptyState 10) [0] ["click"] 0 5).1
      [(0, "focus"), (0, "click"), (0, "blur")]).1
    "Cannot re-assign an event without removing the old one first"
    rfl

/-! ## Claim C10 -/

/-- Claim C10: an `on()` call whose normalized options is the
caller-supplied object mutates exactly that object in place — `ctrl: true`
is replaced by a newly created `AbortController`, an object `ctrl` donates
its `signal` when `signal` is undefined, every other field and every other
heap object is untouched — and the same (mutated) object reference is
stored in every registration created by the call. -/
theorem on_mutates_caller_options (st : EvState) (nodes : List Nat)
    (types : List String) (optRef userListener : Nat) :
    (onCall st nodes types optRef userListener).1.heap optRef
      = optionsMutationSpec (st.heap optRef) st.fresh ∧
    (∀ r, r ≠ optRef →
      (onCall st nodes types optRef userListener).1.heap r = st.heap r) ∧
    (∀ rg ∈ (onCall st nodes types optRef userListener).1.audit,
      rg ∈ st.audit ∨ rg.options = optRef) := by
  have hunfold : onCall st nodes types optRef userListener
      = onPairs (match (st.heap optRef).selector with
          | some sel => StoredListener.delegated sel userListener
          | none => .direct userListener) optRef
          (eventSuffix ((ctrlPhase st optRef).heap optRef))
          (((ctrlPhase st optRef).heap optRef).capture)
          (ctrlPhase st optRef) (nodeTypePairs nodes types) := rfl
  have hframe := ctrlPhase_frame st optRef
  rw [hunfold]
  refine ⟨?_, ?_, ?_⟩
  · rw [onPairs_heap]
    exact ctrlPhase_heap_at st optRef
  · intro r hr
    rw [onPairs_heap]
    exact ctrlPhase_heap_other st optRef r hr
  · intro rg hrg
    rcases onPairs_audit_sub _ optRef _ _ (nodeTypePairs nodes types)
        (ctrlPhase st optRef) rg hrg with h1 | h1
    · left
      rw [← hframe.2.2]
      exact h1
    · exact Or.inr h1

/-- Witness for C10 at a concrete input: a caller options object with
`ctrl: true` becomes a fresh controller/signal pair while its other field
survives, an unrelated heap object is untouched, and the one registration
created stores the caller's reference. -/
theorem on_mutates_caller_options_witness :
    (onCall
        { evEmptyState 20 with
          heap := fun r =>
            if r = 0 then ⟨none, false, .vtrue, none, [("x", 1)]⟩
            else ⟨none, false, .undefined, none, []⟩ }
        [0] ["click"] 0 5).1.heap 0
      = ⟨none, false, .obj 20 21, some 21, [("x", 1)]⟩ ∧
    (onCall
        { evEmptyState 20 with
          heap := fun r =>
            if r = 0 then ⟨none, false, .vtrue, none, [("x", 1)]⟩
            else ⟨none, false, .undefined, none, []⟩ }
        [0] ["click"] 0 5).1.heap 3
      = ⟨none, false, .undefined, none, []⟩ ∧
    ((⟨0, "click", .direct 5, 0⟩ : Registration)
        ∈ ({ evEmptyState 20 with
             heap := fun r =>
               if r = 0 then ⟨none, false, .vtrue, none, [("x", 1)]⟩
               else ⟨none, false, .undefined, none, []⟩ } : EvState).audit
      ∨ (⟨0, "click", .direct 5, 0⟩ : Registration).options = 0) :=
  have h := on_mutates_caller_options
    { evEmptyState 20 with
      heap := fun r =>
        if r = 0 then ⟨none, false, .vtrue, none, [("x", 1)]⟩
        else ⟨none, false, .undefined, none, []⟩ }
    [0] ["click"] 0 5
  ⟨h.1, h.2.1 3 (by decide), h.2.2 ⟨0, "click", .direct 5, 0⟩ (by decide)⟩

end LumDomEvents
